import Mathlib

/-!
Shallow embedding of the sqly package (src/sqly.go): the reflection-driven
schema synthesizer (`CreateTableIfNotExists`) and the upsert mapper
(`Upsert`), together with the string helpers they use
(`strings.Split`, `strings.Contains`, and the two `*With(...)` regexps).

Go machine values are modelled by the `Value` inductive (a signed integer
value is the only one for which `reflect.Value.CanInt` is true), Go field
kinds by `Kind`, and a Go struct by `StructVal`.  The statement executor
(`sqlx.ExecerContext`) is modelled as an oracle mapping the index of each
issued statement to its outcome; the embedded operations return the list of
statements they issued in order, so "the executor was never invoked" is
"the issued list is empty".
-/

set_option maxHeartbeats 1000000
set_option maxRecDepth 4000

namespace Sqly

/-- Go `strings.Split(s, sep)` for a one-character separator, on `List Char`.
`strings.Split("", ",") = [""]`, hence the `[[]]` base case. -/
def goSplitChars (sep : Char) : List Char → List (List Char)
  | [] => [[]]
  | c :: cs =>
    let r := goSplitChars sep cs
    if c = sep then [] :: r
    else
      match r with
      | [] => [[c]]
      | h :: t => (c :: h) :: t

/-- Go `strings.Split(s, string(sep))`. -/
def goSplit (sep : Char) (s : String) : List String :=
  (goSplitChars sep s.toList).map (fun cs => String.mk cs)

/-- Go `strings.Contains(hay, pat)`, on `List Char`:
some suffix of `hay` has `pat` as a prefix. -/
def containsSubChars (pat : List Char) : List Char → Bool
  | [] => pat.isEmpty
  | c :: t => pat.isPrefixOf (c :: t) || containsSubChars pat t

/-- Go `strings.Contains(s, sub)`. -/
def goContains (s sub : String) : Bool :=
  containsSubChars sub.toList s.toList

/-- The greedy capture of `(.*)\)` in Go's RE2 (with `.` not matching a
newline): the longest newline-free prefix of the input that is immediately
followed by `)`.  `none` when no such prefix exists (unbalanced token). -/
def greedyCapture : List Char → Option (List Char)
  | [] => none
  | c :: cs =>
    match (if c = '\n' then none else (greedyCapture cs).map (c :: ·)) with
    | some p => some p
    | none => if c = ')' then some [] else none

/-- Model of `FindStringSubmatch` for the pattern `pre ++ "(.*)" ++ ")"` (the shape of
`uniqueWithRegexp`/`indexWithRegexp` in the source, whose literal part ends
with an escaped `(`): search for the leftmost position at which the literal
prefix matches and a greedy capture closes; otherwise advance one character. -/
def findCapture (pat : List Char) : List Char → Option (List Char)
  | [] => none
  | c :: cs =>
    if pat.isPrefixOf (c :: cs) then
      match greedyCapture ((c :: cs).drop pat.length) with
      | some p => some p
      | none => findCapture pat cs
    else findCapture pat cs

/-- Model of `uniqueWithRegexp.FindStringSubmatch(tag)` and its indexWith twin, returning
the first capture group.  `pre` is the literal part including the opening
parenthesis, e.g. `"uniqueWith("`. -/
def regexCapture (pre : String) (tag : String) : Option String :=
  (findCapture pre.toList tag.toList).map (fun cs => String.mk cs)

/-- Go `strings.Join(l, sep)`. -/
def goJoin (sep : String) : List String → String
  | [] => ""
  | [x] => x
  | x :: y :: rest => x ++ sep ++ goJoin sep (y :: rest)

/-- A Go runtime value as far as sqly inspects one.  `reflect.Value.CanInt`
is true exactly for the signed-integer constructor `vInt`; all other values
are only read back out as statement parameters. -/
inductive Value where
  | vInt (i : Int)
  | vUint (n : Nat)
  | vStr (s : String)
  | vBool (b : Bool)
  | vFloat
  | vBytes (bs : List Nat)
  | vOther
  deriving DecidableEq, Repr

/-- Model of `reflect.Value.CanInt`. -/
def canInt : Value → Bool
  | .vInt _ => true
  | _ => false

/-- Model of `reflect.Value.Int()`; only consulted under a `canInt` guard in the
source, so the value returned on the other constructors is never used. -/
def intVal : Value → Int
  | .vInt i => i
  | _ => 0

/-- The `reflect.Kind` of a struct field's type, as far as the source's switch
distinguishes them.  `slice` carries the element type's kind
(`field.Type.Elem().Kind()`); `otherKind` stands for every kind the switch
does not name (map, chan, func, struct, pointer, …), carrying its Go name. -/
inductive Kind where
  | string
  | uint | uint8 | uint16 | uint32 | uint64
  | int | int8 | int16 | int32 | int64
  | float32 | float64
  | bool
  | slice (elem : Kind)
  | otherKind (goName : String)
  deriving DecidableEq, Repr

/-- One struct field: its name, the `reflect.Kind` of its type, the raw
`sqly:"…"` tag value, whether it is exported, and its current value. -/
structure Field where
  name : String
  kind : Kind
  tag : String
  exported : Bool
  value : Value
  deriving DecidableEq, Repr

/-- A Go struct value: the type's name and its fields in declaration order. -/
structure StructVal where
  name : String
  fields : List Field
  deriving DecidableEq, Repr

/-- A Go value as passed to the two public operations: a struct, a pointer
to another value, or anything else. -/
inductive GoVal where
  | structVal (s : StructVal)
  | ptr (v : GoVal)
  | other
  deriving DecidableEq, Repr

/-- The errors the two operations return.  Constructors carry exactly the
data the corresponding `errors.Errorf` format interpolates; executor errors
are carried verbatim as strings. -/
inductive Err where
  | notAPtr
  | notAPtrToStruct
  | notAStruct
  | unsupportedSliceType (elem : Kind)
  | unsupportedType (field : Field)
  | autoincNotInteger (col : String)
  | autoincNotPkey (col : String)
  | missingPrimaryKey
  | execFailure (msg : String)
  | lastIdFailure (msg : String)
  deriving DecidableEq, Repr

/-- One issued statement: its SQL text and its positional parameters. -/
structure Stmt where
  sql : String
  params : List Value
  deriving DecidableEq, Repr

instance {ε α : Type} [DecidableEq ε] [DecidableEq α] : DecidableEq (Except ε α) := fun x y =>
  match x, y with
  | .error a, .error b =>
    if h : a = b then isTrue (by rw [h]) else isFalse (fun hc => h (by cases hc; rfl))
  | .ok a, .ok b =>
    if h : a = b then isTrue (by rw [h]) else isFalse (fun hc => h (by cases hc; rfl))
  | .error _, .ok _ => isFalse (fun hc => Except.noConfusion hc)
  | .ok _, .error _ => isFalse (fun hc => Except.noConfusion hc)

/-- What `sql.Result` offers the source: `LastInsertId()`, which may itself
fail. -/
structure ExecResult where
  lastInsertId : Except String Int
  deriving DecidableEq, Repr

/-- The statement executor, modelled as an oracle: the outcome of the `k`-th
`ExecContext` call of the operation under consideration. -/
def Oracle : Type := Nat → Except String ExecResult

/-- Column quoting: `fmt.Sprintf("`+"`"+`%s`+"`"+`", name)`. -/
def quoteName (name : String) : String :=
  "`" ++ name ++ "`"

/-- The skip test of `Upsert`'s field loop: some tag token is `pkey` and the
field's value is a signed integer equal to zero. -/
def skipPkeyZero (f : Field) : Bool :=
  (goSplit ',' f.tag).any (fun tag => tag == "pkey" && canInt f.value && intVal f.value == 0)

/-- The accumulator of `Upsert`'s field loop: quoted column names, `?`
placeholders, parameter values, and the index of the field remembered in
`primaryKeyFieldToSet` (later assignments overwrite earlier ones). -/
structure ScanOut where
  cols : List String
  qmarks : List String
  params : List Value
  pk : Option Nat
  deriving DecidableEq, Repr

/-- The field loop of `Upsert`, from field index `i` on: unexported fields are
skipped entirely; an exported field that passes `skipPkeyZero` is recorded
as the field to back-fill (the last such field wins, as each Go iteration
overwrites `primaryKeyFieldToSet`) and excluded from the lists; every other
exported field contributes its quoted name, a `?`, and its value. -/
def upsertScan : Nat → List Field → ScanOut
  | _, [] => ⟨[], [], [], none⟩
  | i, f :: rest =>
    let tail := upsertScan (i + 1) rest
    if f.exported then
      if skipPkeyZero f then
        ⟨tail.cols, tail.qmarks, tail.params, some (tail.pk.getD i)⟩
      else
        ⟨quoteName f.name :: tail.cols, "?" :: tail.qmarks, f.value :: tail.params, tail.pk⟩
    else tail

/-- The INSERT text: `INSERT %sINTO `+"`"+`%s`+"`"+` (%s) VALUES (%s)` with
`OR REPLACE ` exactly when `overwrite` is set. -/
def insertSql (tName : String) (overwrite : Bool) (cols qmarks : List String) : String :=
  "INSERT " ++ (if overwrite then "OR REPLACE " else "")
    ++ "INTO `" ++ tName ++ "` (" ++ goJoin "," cols ++ ") VALUES (" ++ goJoin "," qmarks ++ ")"

/-- Model of `primaryKeyFieldToSet.SetInt(lastID)`: overwrite the value of field `i`
with the signed integer `n`. -/
def setIntAt : List Field → Nat → Int → List Field
  | [], _, _ => []
  | f :: rest, 0, n => { f with value := .vInt n } :: rest
  | f :: rest, i + 1, n => f :: setIntAt rest i n

/-- The observable outcome of one `Upsert` call: the statements issued in
order, the returned error (`none` on success), and the value the caller's
pointer refers to afterwards. -/
structure UpsertOut where
  stmts : List Stmt
  err : Option Err
  final : GoVal
  deriving DecidableEq, Repr

/-- Model of `Upsert(ctx, execer, structPointer, overwrite)`.  Rejects a non-pointer,
then a pointer to a non-struct; otherwise scans the fields, issues the one
INSERT, and on success back-fills `LastInsertId` into the remembered
primary-key field, if any. -/
def upsert (oracle : Oracle) (target : GoVal) (overwrite : Bool) : UpsertOut :=
  match target with
  | .ptr (.structVal s) =>
    let scan := upsertScan 0 s.fields
    let stmt : Stmt := ⟨insertSql s.name overwrite scan.cols scan.qmarks, scan.params⟩
    match oracle 0 with
    | .error msg => ⟨[stmt], some (.execFailure msg), target⟩
    | .ok res =>
      match scan.pk with
      | none => ⟨[stmt], none, target⟩
      | some i =>
        match res.lastInsertId with
        | .error msg => ⟨[stmt], some (.lastIdFailure msg), target⟩
        | .ok lastId => ⟨[stmt], none, .ptr (.structVal ⟨s.name, setIntAt s.fields i lastId⟩)⟩
  | .ptr _ => ⟨[], some .notAPtrToStruct, target⟩
  | _ => ⟨[], some .notAPtr, target⟩

/-- The index specs accumulated by the field loop of
`CreateTableIfNotExists` (`type index struct { cols []string; unique bool }`). -/
structure Index where
  cols : List String
  unique : Bool
  deriving DecidableEq, Repr

/-- The mutable state of `CreateTableIfNotExists`'s field loop. -/
structure CTState where
  primaryKeyCol : String
  primaryKeySQLType : String
  pkeyAutoInc : String
  cols : List String
  sqlTypes : List String
  indices : List Index
  deriving DecidableEq, Repr

/-- The initial loop state: every accumulator empty. -/
def initCT : CTState := ⟨"", "", "", [], [], []⟩

/-- The `switch field.Type.Kind()` of `CreateTableIfNotExists`: resolve a
field's kind to its SQL storage class, or fail.  A slice is supported
exactly when its element kind is `uint8`; the error for an unsupported
slice interpolates only the element type, while the default case
interpolates the whole field. -/
def sqlTypeOf (field : Field) : Except Err String :=
  match field.kind with
  | .string => .ok "TEXT"
  | .uint => .ok "INTEGER"
  | .uint8 => .ok "INTEGER"
  | .uint16 => .ok "INTEGER"
  | .uint32 => .ok "INTEGER"
  | .uint64 => .ok "INTEGER"
  | .int => .ok "INTEGER"
  | .int8 => .ok "INTEGER"
  | .int16 => .ok "INTEGER"
  | .int32 => .ok "INTEGER"
  | .int64 => .ok "INTEGER"
  | .float32 => .ok "REAL"
  | .float64 => .ok "REAL"
  | .bool => .ok "INTEGER"
  | .slice elem =>
    if elem = .uint8 then .ok "BLOB" else .error (.unsupportedSliceType elem)
  | .otherKind _ => .error (.unsupportedType field)

/-- The `switch tag` of the tag loop of `CreateTableIfNotExists` for the
field named `name` with resolved SQL type `sqlType`: it may record an index
spec, mark the field as primary key (overwriting `primaryKeyCol` and
`primaryKeySQLType`), mark it auto-increment, record a composite index from
a `*With(...)` token, or do nothing for an unrecognized token.  The
accumulator carries the loop state and the per-field `isPkey` and
`autoIncrement` flags. -/
def tagSwitch (name : String) (sqlType : String) (acc : CTState × Bool × Bool) (tag : String) :
    CTState × Bool × Bool :=
  let st := acc.1
  let isPkey := acc.2.1
  let autoIncrement := acc.2.2
  if tag == "unique" then
    ({ st with indices := st.indices ++ [⟨[name], true⟩] }, isPkey, autoIncrement)
  else if tag == "index" then
    ({ st with indices := st.indices ++ [⟨[name], false⟩] }, isPkey, autoIncrement)
  else if tag == "pkey" then
    ({ st with primaryKeyCol := name, primaryKeySQLType := sqlType }, true, autoIncrement)
  else if tag == "autoinc" then
    (st, isPkey, true)
  else
    match regexCapture "uniqueWith(" tag with
    | some capture =>
      ({ st with indices := st.indices ++ [⟨name :: goSplit ';' capture, true⟩] },
        isPkey, autoIncrement)
    | none =>
      match regexCapture "indexWith(" tag with
      | some capture =>
        ({ st with indices := st.indices ++ [⟨name :: goSplit ';' capture, false⟩] },
          isPkey, autoIncrement)
      | none => (st, isPkey, autoIncrement)

/-- The block following the switch inside the tag loop: on a primary-key
iteration, validate `autoinc` (INTEGER only) and set the AUTOINCREMENT
marker; on a non-primary-key iteration, reject a pending `autoinc` and
append the field to the value-column list. -/
def tagCheck (name : String) (sqlType : String) (acc : CTState × Bool × Bool) :
    Except Err (CTState × Bool × Bool) :=
  let st := acc.1
  let isPkey := acc.2.1
  let autoIncrement := acc.2.2
  if isPkey then
    if autoIncrement then
      if sqlType != "INTEGER" then .error (.autoincNotInteger name)
      else .ok ({ st with pkeyAutoInc := " AUTOINCREMENT" }, isPkey, autoIncrement)
    else .ok (st, isPkey, autoIncrement)
  else
    if autoIncrement then .error (.autoincNotPkey name)
    else .ok ({ st with cols := st.cols ++ [name], sqlTypes := st.sqlTypes ++ [sqlType] },
      isPkey, autoIncrement)

/-- One complete iteration of the tag loop: the switch followed by the
post-switch block. -/
def tagStep (name : String) (sqlType : String) (acc : CTState × Bool × Bool) (tag : String) :
    Except Err (CTState × Bool × Bool) :=
  tagCheck name sqlType (tagSwitch name sqlType acc tag)

/-- One iteration of the field loop of `CreateTableIfNotExists`: unexported
fields are skipped; for an exported field the SQL type is resolved and every
tag token of the comma-split `sqly` tag is processed in order. -/
def fieldStep (st : CTState) (f : Field) : Except Err CTState :=
  if f.exported then
    match sqlTypeOf f with
    | .error e => .error e
    | .ok sqlType =>
      match (goSplit ',' f.tag).foldlM (tagStep f.name sqlType) (st, false, false) with
      | .error e => .error e
      | .ok (st', _, _) => .ok st'
  else .ok st

/-- The `CREATE TABLE IF NOT EXISTS …` text. -/
def createSql (tName : String) (st : CTState) : String :=
  "CREATE TABLE IF NOT EXISTS `" ++ tName ++ "` (`" ++ st.primaryKeyCol ++ "` "
    ++ st.primaryKeySQLType ++ " PRIMARY KEY" ++ st.pkeyAutoInc ++ ")"

/-- The `ALTER TABLE … ADD COLUMN …` text. -/
def alterSql (tName col sqlType : String) : String :=
  "ALTER TABLE `" ++ tName ++ "` ADD COLUMN `" ++ col ++ "` " ++ sqlType

/-- The `CREATE [UNIQUE ]INDEX IF NOT EXISTS …` text: the index name is the
table name and the unescaped comma-joined column list, the ON list is the
backquoted columns. -/
def indexSql (tName : String) (ix : Index) : String :=
  "CREATE " ++ (if ix.unique then "UNIQUE " else "") ++ "INDEX IF NOT EXISTS `"
    ++ tName ++ "." ++ goJoin "," ix.cols ++ "` ON `" ++ tName ++ "` ("
    ++ goJoin "," (ix.cols.map quoteName) ++ ")"

/-- The DDL plan of `CreateTableIfNotExists` once the field loop has
succeeded: the CREATE TABLE, then one ALTER TABLE per accumulated column
(paired with the corresponding SQL type), then one CREATE INDEX per
accumulated index spec.  The boolean flags the statements whose duplicate-
column failures are tolerated — exactly the ALTER TABLE statements. -/
def ddlStatements (tName : String) (st : CTState) : List (Stmt × Bool) :=
  (⟨createSql tName st, []⟩, false)
    :: ((st.cols.zip st.sqlTypes).map (fun p => (⟨alterSql tName p.1 p.2, []⟩, true))
      ++ st.indices.map (fun ix => (⟨indexSql tName ix, []⟩, false)))

/-- Issue a list of planned statements in order against the oracle, starting
at call index `k`.  A failure whose message contains `duplicate column name`
is swallowed when the statement is flagged tolerant; any other failure stops
the run and is returned. -/
def execSeq (oracle : Oracle) : Nat → List (Stmt × Bool) → List Stmt × Option Err
  | _, [] => ([], none)
  | k, (stmt, tolerant) :: rest =>
    match oracle k with
    | .error msg =>
      if tolerant && goContains msg "duplicate column name" then
        let r := execSeq oracle (k + 1) rest
        (stmt :: r.1, r.2)
      else ([stmt], some (.execFailure msg))
    | .ok _ =>
      let r := execSeq oracle (k + 1) rest
      (stmt :: r.1, r.2)

/-- Model of `CreateTableIfNotExists(ctx, execer, prototype)`: rejects a non-struct,
runs the field loop, fails if no field set a primary-key column, and
otherwise issues the DDL plan.  Returns the statements issued in order and
the error, `none` on success. -/
def createTableIfNotExists (oracle : Oracle) (prototype : GoVal) : List Stmt × Option Err :=
  match prototype with
  | .structVal s =>
    match s.fields.foldlM fieldStep initCT with
    | .error e => ([], some e)
    | .ok st =>
      if st.primaryKeyCol == "" then ([], some .missingPrimaryKey)
      else execSeq oracle 0 (ddlStatements s.name st)
  | _ => ([], some .notAStruct)

/-! ### Concrete inputs used by the witness theorems -/

/-- An executor that answers every call with success and last-inserted-id 7. -/
def okOracle : Oracle := fun _ => .ok ⟨.ok 7⟩

/-- An executor whose every call fails with the message `boom`. -/
def boomOracle : Oracle := fun _ => .error "boom"

/-- An executor whose second call (the first ALTER TABLE of a
`createTableIfNotExists` run) reports a duplicate column. -/
def dupColOracle : Oracle := fun k =>
  if k = 1 then .error "duplicate column name: Name" else .ok ⟨.ok 7⟩

/-- An integer field named `Id` tagged `pkey`, currently zero. -/
def demoPkeyField : Field := ⟨"Id", .int64, "pkey", true, .vInt 0⟩

/-- A plain string field named `Name`. -/
def demoNameField : Field := ⟨"Name", .string, "", true, .vStr "n"⟩

/-- An unexported integer field. -/
def demoHiddenField : Field := ⟨"hidden", .int64, "", false, .vInt 9⟩

/-- The struct used by most upsert witnesses. -/
def demoStruct : StructVal := ⟨"U", [demoPkeyField, demoNameField]⟩

/-- The same struct with a nonzero primary key. -/
def demoStructNZ : StructVal := ⟨"U", [{ demoPkeyField with value := .vInt 5 }, demoNameField]⟩

/-- A struct with an unexported field between the exported ones. -/
def demoStructHidden : StructVal := ⟨"U", [demoPkeyField, demoHiddenField, demoNameField]⟩

/-- A struct whose two fields both carry the `pkey` directive. -/
def demoTwoPkeys : StructVal :=
  ⟨"T2", [⟨"A", .int64, "pkey", true, .vInt 0⟩, ⟨"B", .int64, "pkey", true, .vInt 0⟩]⟩

/-- A struct with an unbalanced `uniqueWith(` token. -/
def demoUnbalanced : StructVal :=
  ⟨"T3", [⟨"Id", .int64, "pkey", true, .vInt 0⟩, ⟨"X", .string, "uniqueWith(", true, .vStr "x"⟩]⟩

/-- A struct with an empty-argument `uniqueWith()` token. -/
def demoEmptyArgs : StructVal :=
  ⟨"T3b", [⟨"Id", .int64, "pkey", true, .vInt 0⟩, ⟨"X", .string, "uniqueWith()", true, .vStr "x"⟩]⟩

/-- A struct whose only field is tagged `autoinc,pkey` (autoinc first). -/
def demoAutoincFirst : StructVal := ⟨"T4", [⟨"Id", .int64, "autoinc,pkey", true, .vInt 0⟩]⟩

/-- A struct whose only field is tagged `pkey,autoinc` (pkey first). -/
def demoPkeyFirst : StructVal := ⟨"T4b", [⟨"Id", .int64, "pkey,autoinc", true, .vInt 0⟩]⟩

/-- A struct with a `[]string` field named `Foo` (and a valid primary key). -/
def demoBadSliceFoo : StructVal :=
  ⟨"T5", [⟨"Id", .int64, "pkey", true, .vInt 0⟩, ⟨"Foo", .slice .string, "", true, .vOther⟩]⟩

/-- The same struct with the offending field named `Bar` instead. -/
def demoBadSliceBar : StructVal :=
  ⟨"T5", [⟨"Id", .int64, "pkey", true, .vInt 0⟩, ⟨"Bar", .slice .string, "", true, .vOther⟩]⟩

/-- A struct with no `pkey` directive but an `autoinc` one. -/
def demoAutoincOnly : StructVal := ⟨"T7", [⟨"Id", .int64, "autoinc", true, .vInt 0⟩]⟩

/-- A struct with no directives at all. -/
def demoNoTags : StructVal := ⟨"T7b", [⟨"Id", .int64, "", true, .vInt 0⟩]⟩

/-- A struct whose pkey field is an unsigned integer currently equal to
zero (`reflect.Value.CanInt` is false for unsigned kinds). -/
def demoUintPkey : StructVal := ⟨"U", [⟨"Id", .uint64, "pkey", true, .vUint 0⟩, demoNameField]⟩

/-! ### General lemmas about the upsert scan -/

/-- Unfolding lemma for `upsertScan` on a cons cell, with the tail scan
spelled through projections. -/
theorem upsertScan_cons (i : Nat) (f : Field) (rest : List Field) :
    upsertScan i (f :: rest) =
      if f.exported then
        if skipPkeyZero f then
          ⟨(upsertScan (i + 1) rest).cols, (upsertScan (i + 1) rest).qmarks,
           (upsertScan (i + 1) rest).params, some ((upsertScan (i + 1) rest).pk.getD i)⟩
        else
          ⟨quoteName f.name :: (upsertScan (i + 1) rest).cols,
           "?" :: (upsertScan (i + 1) rest).qmarks,
           f.value :: (upsertScan (i + 1) rest).params, (upsertScan (i + 1) rest).pk⟩
      else upsertScan (i + 1) rest := rfl

/-- The placeholder list always mirrors the column list: one `?` per column. -/
theorem upsertScan_qmarks (k : Nat) (l : List Field) :
    (upsertScan k l).qmarks = List.replicate (upsertScan k l).cols.length "?" := by
  induction l generalizing k with
  | nil => rfl
  | cons f rest ih =>
    by_cases he : f.exported
    · by_cases hs : skipPkeyZero f
      · simp [upsertScan_cons, he, hs, ih (k + 1)]
      · simp [upsertScan, he, hs, ih (k + 1), List.replicate_succ]
    · simp [upsertScan_cons, he, ih (k + 1)]

/-- The `CanInt` test holds exactly on signed-integer values. -/
theorem canInt_iff (v : Value) : canInt v = true ↔ ∃ i, v = .vInt i := by
  cases v <;> simp [canInt]

/-- The skip test of the upsert loop fires exactly when some tag token is
`pkey` and the field's value is the signed integer zero. -/
theorem skipPkeyZero_iff (f : Field) :
    skipPkeyZero f = true ↔ ("pkey" ∈ goSplit ',' f.tag ∧ f.value = .vInt 0) := by
  unfold skipPkeyZero
  rw [List.any_eq_true]
  constructor
  · rintro ⟨t, ht, hp⟩
    simp only [Bool.and_eq_true, beq_iff_eq] at hp
    obtain ⟨⟨ht', hc⟩, hz⟩ := hp
    subst ht'
    obtain ⟨i, hv⟩ := (canInt_iff f.value).1 hc
    rw [hv] at hz ⊢
    simp only [intVal] at hz
    rw [show i = 0 from by exact_mod_cast hz]
    exact ⟨ht, rfl⟩
  · rintro ⟨ht, hv⟩
    exact ⟨"pkey", ht, by simp [hv, canInt, intVal]⟩

/-- The scan of a field list in which no exported field passes the skip test:
every exported field contributes its quoted name, a placeholder and its
value, and no back-fill target is recorded. -/
theorem upsertScan_no_skip (k : Nat) (l : List Field)
    (h : ∀ g ∈ l, g.exported = true → skipPkeyZero g = false) :
    upsertScan k l =
      ⟨(l.filter (·.exported)).map (fun g => quoteName g.name),
       (l.filter (·.exported)).map (fun _ => "?"),
       (l.filter (·.exported)).map (·.value), none⟩ := by
  induction l generalizing k with
  | nil => rfl
  | cons f rest ih =>
    have hrest : ∀ g ∈ rest, g.exported = true → skipPkeyZero g = false :=
      fun g hg => h g (List.mem_cons_of_mem f hg)
    by_cases he : f.exported
    · have hs : skipPkeyZero f = false := h f (List.mem_cons_self f rest) he
      simp [upsertScan_cons, he, hs, ih (k + 1) hrest, List.filter_cons]
    · simp [upsertScan_cons, he, ih (k + 1) hrest, List.filter_cons]

/-- The scan of a field list whose unique skipped field sits between `l₁`
and `l₂`: the skipped field is excluded from all three lists and its index
is recorded as the back-fill target. -/
theorem upsertScan_skip (k : Nat) (l₁ l₂ : List Field) (f : Field)
    (hexp : f.exported = true) (hskip : skipPkeyZero f = true)
    (h₁ : ∀ g ∈ l₁, g.exported = true → skipPkeyZero g = false)
    (h₂ : ∀ g ∈ l₂, g.exported = true → skipPkeyZero g = false) :
    upsertScan k (l₁ ++ f :: l₂) =
      ⟨((l₁ ++ l₂).filter (·.exported)).map (fun g => quoteName g.name),
       ((l₁ ++ l₂).filter (·.exported)).map (fun _ => "?"),
       ((l₁ ++ l₂).filter (·.exported)).map (·.value),
       some (k + l₁.length)⟩ := by
  induction l₁ generalizing k with
  | nil =>
    simp only [List.nil_append, List.length_nil, Nat.add_zero]
    rw [upsertScan_cons, upsertScan_no_skip (k + 1) l₂ h₂]
    simp [hexp, hskip]
  | cons g rest ih =>
    have hg := h₁ g (List.mem_cons_self g rest)
    have hrest : ∀ x ∈ rest, x.exported = true → skipPkeyZero x = false :=
      fun x hx => h₁ x (List.mem_cons_of_mem g hx)
    by_cases he : g.exported
    · have hgs : skipPkeyZero g = false := hg he
      rw [List.cons_append, upsertScan_cons, ih (k + 1) hrest]
      rw [if_pos he, if_neg (by simp [hgs])]
      simp [List.filter_cons, he, ScanOut.mk.injEq]
      omega
    · rw [List.cons_append, upsertScan_cons, if_neg he, ih (k + 1) hrest]
      simp [List.filter_cons, he, ScanOut.mk.injEq]
      omega

/-- Setting the integer at the index just past `l₁` rewrites exactly that field. -/
theorem setIntAt_append (l₁ : List Field) (f : Field) (l₂ : List Field) (n : Int) :
    setIntAt (l₁ ++ f :: l₂) l₁.length n = l₁ ++ { f with value := .vInt n } :: l₂ := by
  induction l₁ with
  | nil => rfl
  | cons g rest ih => simp [setIntAt, ih]

/-! ### C10 and C8 -/

/-- C10: the two public operations accept opposite input shapes.
`createTableIfNotExists` returns the not-a-struct error for every pointer
input (in particular a pointer to a struct), `upsert` returns the
not-a-pointer error for every bare struct value, and in both rejections the
list of statements issued to the executor is empty and the input value is
left untouched. -/
theorem inputShape_opposite :
    (∀ (oracle : Oracle) (v : GoVal),
      createTableIfNotExists oracle (.ptr v) = ([], some .notAStruct))
  ∧ (∀ (oracle : Oracle) (s : StructVal) (ov : Bool),
      upsert oracle (.structVal s) ov = ⟨[], some .notAPtr, .structVal s⟩) := by
  exact ⟨fun _ _ => rfl, fun _ _ _ => rfl⟩

/-- C8: on a pointer-to-struct input, `upsert` issues exactly one statement,
whose text is `INSERT [OR REPLACE ]INTO <name> (cols) VALUES (placeholders)`
with `OR REPLACE ` exactly when `overwrite` is true, whose placeholder list
has one `?` per column; and when the executor fails that statement, the
error is forwarded as-is and no primary-key back-fill happens (the pointed-to
struct is unchanged). -/
theorem upsert_single_statement (oracle : Oracle) (s : StructVal) (ov : Bool) :
    (upsert oracle (.ptr (.structVal s)) ov).stmts =
      [⟨insertSql s.name ov (upsertScan 0 s.fields).cols (upsertScan 0 s.fields).qmarks,
        (upsertScan 0 s.fields).params⟩]
  ∧ insertSql s.name ov (upsertScan 0 s.fields).cols (upsertScan 0 s.fields).qmarks =
      "INSERT " ++ (if ov then "OR REPLACE " else "") ++ "INTO `" ++ s.name ++ "` ("
        ++ goJoin "," (upsertScan 0 s.fields).cols ++ ") VALUES ("
        ++ goJoin "," (upsertScan 0 s.fields).qmarks ++ ")"
  ∧ (upsertScan 0 s.fields).qmarks =
      List.replicate (upsertScan 0 s.fields).cols.length "?"
  ∧ (∀ msg, oracle 0 = .error msg →
      upsert oracle (.ptr (.structVal s)) ov =
        ⟨[⟨insertSql s.name ov (upsertScan 0 s.fields).cols (upsertScan 0 s.fields).qmarks,
          (upsertScan 0 s.fields).params⟩],
          some (.execFailure msg), .ptr (.structVal s)⟩) := by
  refine ⟨?_, rfl, upsertScan_qmarks 0 s.fields, ?_⟩
  · cases h : oracle 0 with
    | error msg => simp [upsert, h]
    | ok res =>
      cases hpk : (upsertScan 0 s.fields).pk with
      | none => simp [upsert, h, hpk]
      | some i =>
        cases hl : res.lastInsertId with
        | error msg => simp [upsert, h, hpk, hl]
        | ok lastId => simp [upsert, h, hpk, hl]
  · intro msg h
    simp [upsert, h]

/-- C1 counterexample: a `pkey`-tagged unsigned-integer field equal to zero
is NOT excluded — `reflect.Value.CanInt` is false for unsigned kinds, so the
field is included in the INSERT's column and parameter lists like any other
column and is never back-filled (the struct is returned unchanged), refuting
the claim for unsigned integer zero values. -/
theorem upsert_uint_pkey_zero_counterexample :
    upsert okOracle (.ptr (.structVal demoUintPkey)) false =
      ⟨[⟨"INSERT INTO `U` (`Id`,`Name`) VALUES (?,?)", [.vUint 0, .vStr "n"]⟩],
        none, .ptr (.structVal demoUintPkey)⟩ := by
  decide

/-- C1 (amended): for a struct passed by pointer whose unique exported
`pkey`-tagged field is `f`: only when `f`'s value is the SIGNED integer zero
(Go's `CanInt() && Int() == 0`) is `f` excluded from the INSERT's column and
parameter lists and, after the executor reports success, back-filled with
the last-inserted-id; for every other value — a nonzero signed integer, or
an unsigned integer even when it equals zero — `f` is included in the lists
like any other exported field and the struct is left unmutated. -/
theorem upsert_pkey_zero_backfill
    (oracle : Oracle) (s : StructVal) (ov : Bool)
    (l₁ l₂ : List Field) (f : Field) (res : ExecResult) (lastId : Int)
    (hs : s.fields = l₁ ++ f :: l₂)
    (hexp : f.exported = true)
    (hpk : "pkey" ∈ goSplit ',' f.tag)
    (huniq : ∀ g ∈ l₁ ++ l₂, g.exported = true → "pkey" ∉ goSplit ',' g.tag)
    (hexec : oracle 0 = .ok res)
    (hlast : res.lastInsertId = .ok lastId) :
    (f.value = .vInt 0 →
        (upsertScan 0 s.fields).cols =
          ((l₁ ++ l₂).filter (·.exported)).map (fun g => quoteName g.name)
      ∧ (upsertScan 0 s.fields).params = ((l₁ ++ l₂).filter (·.exported)).map (·.value)
      ∧ (upsert oracle (.ptr (.structVal s)) ov).err = none
      ∧ (upsert oracle (.ptr (.structVal s)) ov).final =
          .ptr (.structVal ⟨s.name, l₁ ++ { f with value := .vInt lastId } :: l₂⟩))
  ∧ (f.value ≠ .vInt 0 →
        (upsertScan 0 s.fields).cols =
          ((l₁ ++ f :: l₂).filter (·.exported)).map (fun g => quoteName g.name)
      ∧ (upsertScan 0 s.fields).params = ((l₁ ++ f :: l₂).filter (·.exported)).map (·.value)
      ∧ (upsert oracle (.ptr (.structVal s)) ov).err = none
      ∧ (upsert oracle (.ptr (.structVal s)) ov).final = .ptr (.structVal s)) := by
  have hside : ∀ g ∈ l₁ ++ l₂, g.exported = true → skipPkeyZero g = false := by
    intro g hg hge
    by_contra hcon
    have := (skipPkeyZero_iff g).1 (by revert hcon; cases skipPkeyZero g <;> simp)
    exact (huniq g hg hge) this.1
  have h₁ : ∀ g ∈ l₁, g.exported = true → skipPkeyZero g = false :=
    fun g hg => hside g (List.mem_append_left l₂ hg)
  have h₂ : ∀ g ∈ l₂, g.exported = true → skipPkeyZero g = false :=
    fun g hg => hside g (List.mem_append_right l₁ hg)
  constructor
  · intro hz
    have hskip : skipPkeyZero f = true := (skipPkeyZero_iff f).2 ⟨hpk, hz⟩
    have hscan := upsertScan_skip 0 l₁ l₂ f hexp hskip h₁ h₂
    rw [Nat.zero_add] at hscan
    rw [hs, hscan]
    refine ⟨rfl, rfl, ?_⟩
    have hset := setIntAt_append l₁ f l₂ lastId
    simp [upsert, hs, hscan, hexec, hlast, hset]
  · intro hnz
    have hskip : skipPkeyZero f = false := by
      by_contra hcon
      have := (skipPkeyZero_iff f).1 (by revert hcon; cases skipPkeyZero f <;> simp)
      exact hnz this.2
    have hall : ∀ g ∈ l₁ ++ f :: l₂, g.exported = true → skipPkeyZero g = false := by
      intro g hg hge
      rcases List.mem_append.1 hg with hg1 | hg2
      · exact h₁ g hg1 hge
      · rcases List.mem_cons.1 hg2 with rfl | hg3
        · exact hskip
        · exact h₂ g hg3 hge
    have hscan := upsertScan_no_skip 0 (l₁ ++ f :: l₂) hall
    rw [hs, hscan]
    refine ⟨rfl, rfl, ?_⟩
    simp [upsert, hs, hscan, hexec]

/-- Witness for C1: upserting `demoStruct` (zero `Id` tagged `pkey`) against
an executor returning last-inserted-id 7 succeeds and back-fills `Id := 7`. -/
theorem upsert_pkey_zero_backfill_witness :
    (upsert okOracle (.ptr (.structVal demoStruct)) false).err = none
  ∧ (upsert okOracle (.ptr (.structVal demoStruct)) false).final =
      .ptr (.structVal ⟨"U", [{ demoPkeyField with value := .vInt 7 }, demoNameField]⟩) := by
  have h := (upsert_pkey_zero_backfill okOracle demoStruct false [] [demoNameField]
    demoPkeyField ⟨.ok 7⟩ 7 rfl rfl (by decide) (by decide) rfl rfl).1 rfl
  exact ⟨h.2.2.1, h.2.2.2⟩

/-- Witness for C8: a failing executor makes `upsert` return the forwarded
failure, issue the single INSERT, and leave the struct alone. -/
theorem upsert_single_statement_witness :
    upsert boomOracle (.ptr (.structVal demoStruct)) false =
      ⟨[⟨"INSERT INTO `U` (`Name`) VALUES (?)", [.vStr "n"]⟩],
        some (.execFailure "boom"), .ptr (.structVal demoStruct)⟩ := by
  have h := (upsert_single_statement boomOracle demoStruct false).2.2.2 "boom" rfl
  rw [h]
  decide

/-! ### General lemmas about the createTable field loop -/

/-- Inversion for `Except` bind. -/
theorem except_bind_ok {e a b : Type} (x : Except e a) (g : a → Except e b) (y : b)
    (h : x >>= g = .ok y) : ∃ v, x = .ok v ∧ g v = .ok y := by
  cases x with
  | error msg => simp [Bind.bind, Except.bind] at h
  | ok v => exact ⟨v, rfl, by simpa [Bind.bind, Except.bind] using h⟩

/-- The switch leaves `primaryKeyCol` untouched for every token other than
`pkey`. -/
theorem tagSwitch_primaryKeyCol_of_ne (n ty : String) (acc : CTState × Bool × Bool)
    (t : String) (hne : t ≠ "pkey") :
    (tagSwitch n ty acc t).1.primaryKeyCol = acc.1.primaryKeyCol := by
  obtain ⟨st, p, a⟩ := acc
  by_cases h1 : t = "unique"
  · simp [tagSwitch, h1]
  by_cases h2 : t = "index"
  · simp [tagSwitch, beq_iff_eq, h1, h2]
  by_cases h4 : t = "autoinc"
  · simp [tagSwitch, beq_iff_eq, h1, h2, hne, h4]
  rcases hru : regexCapture "uniqueWith(" t with _ | cap
  · rcases hri : regexCapture "indexWith(" t with _ | cap2
    · simp [tagSwitch, beq_iff_eq, h1, h2, hne, h4, hru, hri]
    · simp [tagSwitch, beq_iff_eq, h1, h2, hne, h4, hru, hri]
  · simp [tagSwitch, beq_iff_eq, h1, h2, hne, h4, hru]

/-- The switch on the token `pkey` overwrites the primary-key column and
type and raises the `isPkey` flag. -/
theorem tagSwitch_pkey (n ty : String) (acc : CTState × Bool × Bool) :
    tagSwitch n ty acc "pkey" =
      ({ acc.1 with primaryKeyCol := n, primaryKeySQLType := ty }, true, acc.2.2) := by
  obtain ⟨st, p, a⟩ := acc
  simp [tagSwitch]

/-- The post-switch block never changes `primaryKeyCol`. -/
theorem tagCheck_primaryKeyCol (n ty : String) (acc : CTState × Bool × Bool)
    (st2 : CTState) (p2 a2 : Bool) (h : tagCheck n ty acc = .ok (st2, p2, a2)) :
    st2.primaryKeyCol = acc.1.primaryKeyCol := by
  obtain ⟨st, p, a⟩ := acc
  cases p <;> cases a <;> simp only [tagCheck] at h <;>
    (split_ifs at h <;> simp at h <;>
      (try (obtain ⟨h1, h2, h3⟩ := h; subst h1; rfl)))

/-- One tag-loop step either leaves `primaryKeyCol` alone or — exactly for
the token `pkey` — sets it to the field's name. -/
theorem tagStep_primaryKeyCol (n ty : String) (st : CTState) (p a : Bool) (t : String)
    (st2 : CTState) (p2 a2 : Bool)
    (h : tagStep n ty (st, p, a) t = .ok (st2, p2, a2)) :
    st2.primaryKeyCol = st.primaryKeyCol ∨ (t = "pkey" ∧ st2.primaryKeyCol = n) := by
  by_cases hp : t = "pkey"
  · subst hp
    refine Or.inr ⟨rfl, ?_⟩
    unfold tagStep at h
    rw [tagSwitch_pkey] at h
    exact tagCheck_primaryKeyCol n ty _ st2 p2 a2 h
  · unfold tagStep at h
    exact Or.inl ((tagCheck_primaryKeyCol n ty _ st2 p2 a2 h).trans
      (tagSwitch_primaryKeyCol_of_ne n ty (st, p, a) t hp))

/-- Over a whole tag list: `primaryKeyCol` is preserved unless some token is
`pkey`, in which case it ends up equal to the field's name exactly when the
fold reaches the end. -/
theorem tagFold_primaryKeyCol (n ty : String) (tags : List String) (st : CTState) (p a : Bool)
    (st2 : CTState) (p2 a2 : Bool)
    (h : tags.foldlM (tagStep n ty) (st, p, a) = .ok (st2, p2, a2)) :
    st2.primaryKeyCol = st.primaryKeyCol ∨ st2.primaryKeyCol = n := by
  induction tags generalizing st p a with
  | nil =>
    simp only [List.foldlM_nil] at h
    cases h
    exact Or.inl rfl
  | cons t rest ih =>
    rw [List.foldlM_cons] at h
    obtain ⟨⟨st1, p1, a1⟩, hstep, hfold⟩ := except_bind_ok _ _ _ h
    rcases tagStep_primaryKeyCol n ty st p a t st1 p1 a1 hstep with h1 | ⟨_, h1⟩ <;>
      rcases ih st1 p1 a1 hfold with h2 | h2 <;> simp_all

/-- If no token is `pkey`, the tag fold leaves `primaryKeyCol` untouched. -/
theorem tagFold_primaryKeyCol_no_pkey (n ty : String) (tags : List String) (st : CTState)
    (p a : Bool) (st2 : CTState) (p2 a2 : Bool)
    (hno : "pkey" ∉ tags)
    (h : tags.foldlM (tagStep n ty) (st, p, a) = .ok (st2, p2, a2)) :
    st2.primaryKeyCol = st.primaryKeyCol := by
  induction tags generalizing st p a with
  | nil =>
    simp only [List.foldlM_nil] at h
    cases h
    rfl
  | cons t rest ih =>
    rw [List.foldlM_cons] at h
    obtain ⟨⟨st1, p1, a1⟩, hstep, hfold⟩ := except_bind_ok _ _ _ h
    have hne : t ≠ "pkey" := fun hc => hno (hc ▸ List.mem_cons_self t rest)
    rcases tagStep_primaryKeyCol n ty st p a t st1 p1 a1 hstep with h1 | ⟨hc, _⟩
    · rw [ih st1 p1 a1 (fun hc => hno (List.mem_cons_of_mem t hc)) hfold, h1]
    · exact absurd hc hne

/-- If some token is `pkey`, the tag fold ends with `primaryKeyCol` equal to
the field's name. -/
theorem tagFold_primaryKeyCol_pkey (n ty : String) (tags : List String) (st : CTState)
    (p a : Bool) (st2 : CTState) (p2 a2 : Bool)
    (hmem : "pkey" ∈ tags)
    (h : tags.foldlM (tagStep n ty) (st, p, a) = .ok (st2, p2, a2)) :
    st2.primaryKeyCol = n := by
  induction tags generalizing st p a with
  | nil => cases hmem
  | cons t rest ih =>
    rw [List.foldlM_cons] at h
    obtain ⟨⟨st1, p1, a1⟩, hstep, hfold⟩ := except_bind_ok _ _ _ h
    rcases List.mem_cons.1 hmem with rfl | hrest
    · rcases tagStep_primaryKeyCol n ty st p a "pkey" st1 p1 a1 hstep with h1 | ⟨_, h1⟩
      · have h1n : st1.primaryKeyCol = n := by
          unfold tagStep at hstep
          rw [tagSwitch_pkey] at hstep
          exact (tagCheck_primaryKeyCol n ty _ st1 p1 a1 hstep)
        rcases tagFold_primaryKeyCol n ty rest st1 p1 a1 st2 p2 a2 hfold with h2 | h2 <;>
          simp_all
      · rcases tagFold_primaryKeyCol n ty rest st1 p1 a1 st2 p2 a2 hfold with h2 | h2 <;>
          simp_all
    · exact ih st1 p1 a1 hrest hfold

/-- A field-loop step either leaves `primaryKeyCol` alone or — only for an
exported field one of whose tokens is `pkey` — sets it to the field's name. -/
theorem fieldStep_primaryKeyCol (st : CTState) (f : Field) (st2 : CTState)
    (h : fieldStep st f = .ok st2) :
    st2.primaryKeyCol = st.primaryKeyCol ∨
      (f.exported = true ∧ "pkey" ∈ goSplit ',' f.tag ∧ st2.primaryKeyCol = f.name) := by
  by_cases he : f.exported
  · simp only [fieldStep, he, if_true] at h
    rcases hty : sqlTypeOf f with e | ty
    · simp only [hty] at h
      exact absurd h (by simp)
    · simp only [hty] at h
      rcases hfold : (goSplit ',' f.tag).foldlM (tagStep f.name ty) (st, false, false) with
        e | ⟨st1, p1, a1⟩
      · simp only [hfold] at h
        exact absurd h (by simp)
      · simp only [hfold, Except.ok.injEq] at h
        subst h
        by_cases hmem : "pkey" ∈ goSplit ',' f.tag
        · exact Or.inr ⟨he, hmem,
            tagFold_primaryKeyCol_pkey f.name ty _ st false false st1 p1 a1 hmem hfold⟩
        · exact Or.inl
            (tagFold_primaryKeyCol_no_pkey f.name ty _ st false false st1 p1 a1 hmem hfold)
  · simp only [fieldStep, he, if_false] at h
    cases h
    exact Or.inl rfl

/-- A field-loop step of an exported field with a `pkey` token sets
`primaryKeyCol` to that field's name. -/
theorem fieldStep_primaryKeyCol_pkey (st : CTState) (f : Field) (st2 : CTState)
    (he : f.exported = true) (hmem : "pkey" ∈ goSplit ',' f.tag)
    (h : fieldStep st f = .ok st2) : st2.primaryKeyCol = f.name := by
  simp only [fieldStep, he, if_true] at h
  rcases hty : sqlTypeOf f with e | ty
  · simp only [hty] at h
    exact absurd h (by simp)
  · simp only [hty] at h
    rcases hfold : (goSplit ',' f.tag).foldlM (tagStep f.name ty) (st, false, false) with
      e | ⟨st1, p1, a1⟩
    · simp only [hfold] at h
      exact absurd h (by simp)
    · simp only [hfold, Except.ok.injEq] at h
      subst h
      exact tagFold_primaryKeyCol_pkey f.name ty _ st false false st1 p1 a1 hmem hfold

/-- The field fold of a list none of whose exported fields carries a `pkey`
token leaves `primaryKeyCol` untouched. -/
theorem fieldFold_primaryKeyCol_no_pkey (l : List Field) (st st2 : CTState)
    (hno : ∀ g ∈ l, g.exported = true → "pkey" ∉ goSplit ',' g.tag)
    (h : l.foldlM fieldStep st = .ok st2) : st2.primaryKeyCol = st.primaryKeyCol := by
  induction l generalizing st with
  | nil =>
    simp only [List.foldlM_nil] at h
    cases h
    rfl
  | cons f rest ih =>
    rw [List.foldlM_cons] at h
    obtain ⟨st1, hstep, hfold⟩ := except_bind_ok _ _ _ h
    have hrest := ih st1 (fun g hg => hno g (List.mem_cons_of_mem f hg)) hfold
    rcases fieldStep_primaryKeyCol st f st1 hstep with h1 | ⟨he, hmem, _⟩
    · rw [hrest, h1]
    · exact absurd hmem (hno f (List.mem_cons_self f rest) he)

/-- Appending fields after the last `pkey`-carrying exported field cannot
change `primaryKeyCol` away from that field's name. -/
theorem fieldFold_primaryKeyCol_last (l₁ l₂ : List Field) (b : Field) (st st2 : CTState)
    (hb : b.exported = true) (hmem : "pkey" ∈ goSplit ',' b.tag)
    (hno : ∀ g ∈ l₂, g.exported = true → "pkey" ∉ goSplit ',' g.tag)
    (h : (l₁ ++ b :: l₂).foldlM fieldStep st = .ok st2) :
    st2.primaryKeyCol = b.name := by
  rw [List.foldlM_append] at h
  obtain ⟨stA, hA, hrest⟩ := except_bind_ok _ _ _ h
  rw [List.foldlM_cons] at hrest
  obtain ⟨stB, hB, hC⟩ := except_bind_ok _ _ _ hrest
  rw [fieldFold_primaryKeyCol_no_pkey l₂ stB st2 hno hC]
  exact fieldStep_primaryKeyCol_pkey stA b stB hb hmem hB

/-- A field whose annotation is exactly `pkey` only overwrites the
primary-key registers: it contributes no value column, no SQL type and no
index spec. -/
theorem fieldStep_pkey_only (st : CTState) (f : Field) (ty : String)
    (he : f.exported = true) (hty : sqlTypeOf f = .ok ty)
    (htags : goSplit ',' f.tag = ["pkey"]) :
    fieldStep st f = .ok { st with primaryKeyCol := f.name, primaryKeySQLType := ty } := by
  simp only [fieldStep, he, if_true, hty, htags]
  rfl

/-! ### C2 and C7 -/

/-- C2 counterexample: on a struct whose fields `A` and `B` (in that order)
both carry `pkey`, the synthesized CREATE TABLE declares `B` — the last
pkey-tagged field, not the first — as the primary-key column, and no
ALTER TABLE treats either as an ordinary value column. -/
theorem createTable_first_pkey_counterexample :
    createTableIfNotExists okOracle (.structVal demoTwoPkeys) =
      ([⟨"CREATE TABLE IF NOT EXISTS `T2` (`B` INTEGER PRIMARY KEY)", []⟩], none)
  ∧ (createTableIfNotExists okOracle (.structVal demoTwoPkeys)).1 ≠
      [⟨"CREATE TABLE IF NOT EXISTS `T2` (`A` INTEGER PRIMARY KEY)", []⟩,
       ⟨"ALTER TABLE `T2` ADD COLUMN `B` INTEGER", []⟩] := by
  constructor
  · decide
  · decide

/-- C2 (amended): when several fields declare `pkey`, each `pkey` token
overwrites the primary-key choice, so the LAST exported pkey-tagged field
becomes the table's primary-key column; and a field whose annotation is
exactly `pkey` contributes no ordinary value column at all — its field-loop
step only overwrites the primary-key registers. -/
theorem createTable_multiple_pkeys_last_wins
    (s : StructVal) (l₁ l₂ : List Field) (b : Field) (st : CTState)
    (hs : s.fields = l₁ ++ b :: l₂)
    (hb : b.exported = true) (hmem : "pkey" ∈ goSplit ',' b.tag)
    (hno : ∀ g ∈ l₂, g.exported = true → "pkey" ∉ goSplit ',' g.tag)
    (hfold : s.fields.foldlM fieldStep initCT = .ok st) :
    st.primaryKeyCol = b.name
  ∧ (∀ (st0 : CTState) (f : Field) (ty : String), f.exported = true →
      sqlTypeOf f = .ok ty → goSplit ',' f.tag = ["pkey"] →
      fieldStep st0 f = .ok { st0 with primaryKeyCol := f.name, primaryKeySQLType := ty }) := by
  refine ⟨?_, fun st0 f ty he hty ht => fieldStep_pkey_only st0 f ty he hty ht⟩
  rw [hs] at hfold
  exact fieldFold_primaryKeyCol_last l₁ l₂ b initCT st hb hmem hno hfold

/-- Witness for the amended C2, at the two-pkey demo struct: the field loop
ends with primary-key column `B`. -/
theorem createTable_multiple_pkeys_last_wins_witness :
    (⟨"B", "INTEGER", "", [], [], []⟩ : CTState).primaryKeyCol = "B" := by
  have h := createTable_multiple_pkeys_last_wins demoTwoPkeys
    [⟨"A", .int64, "pkey", true, .vInt 0⟩] [] ⟨"B", .int64, "pkey", true, .vInt 0⟩
    ⟨"B", "INTEGER", "", [], [], []⟩ rfl rfl (by decide) (by decide) (by decide)
  exact h.1

/-- C7 counterexample: a struct with no `pkey` directive whose only field
carries `autoinc` makes `CreateTableIfNotExists` fail with the
autoinc-without-pkey error — not the missing-primary-key error — though
still without issuing any statement. -/
theorem createTable_missing_pkey_counterexample :
    createTableIfNotExists okOracle (.structVal demoAutoincOnly) =
      ([], some (.autoincNotPkey "Id"))
  ∧ Err.autoincNotPkey "Id" ≠ Err.missingPrimaryKey := by
  constructor
  · decide
  · decide

/-- C7 (amended): when no exported field carries a `pkey` token AND the
field loop completes without error (every exported field resolves to a
supported SQL type and no stray `autoinc` aborts it first), the call
returns the missing-primary-key error and issues no statement at all. -/
theorem createTable_missing_pkey (oracle : Oracle) (s : StructVal) (st : CTState)
    (hfold : s.fields.foldlM fieldStep initCT = .ok st)
    (hno : ∀ g ∈ s.fields, g.exported = true → "pkey" ∉ goSplit ',' g.tag) :
    createTableIfNotExists oracle (.structVal s) = ([], some .missingPrimaryKey) := by
  have h0 : st.primaryKeyCol = "" := by
    rw [fieldFold_primaryKeyCol_no_pkey s.fields initCT st hno hfold]
    rfl
  simp [createTableIfNotExists, hfold, h0]

/-- Witness for the amended C7: a struct whose only field has no directives
produces the missing-primary-key error and an empty statement list. -/
theorem createTable_missing_pkey_witness :
    createTableIfNotExists okOracle (.structVal demoNoTags) =
      ([], some .missingPrimaryKey) :=
  createTable_missing_pkey okOracle demoNoTags ⟨"", "", "", ["Id"], ["INTEGER"], []⟩
    (by decide) (by decide)

/-! ### C4 and C3 -/

/-- C4 counterexample: a field tagged `autoinc,pkey` — both directives, but
autoinc first — makes `CreateTableIfNotExists` fail with the
autoinc-without-pkey error even though the field carries `pkey` and resolves
to INTEGER, refuting "in either order within the annotation". -/
theorem createTable_autoinc_order_counterexample :
    createTableIfNotExists okOracle (.structVal demoAutoincFirst) =
      ([], some (.autoincNotPkey "Id")) := by
  decide

/-- C4 (amended): the autoinc validation happens after every tag token, so
`autoinc` is accepted only when a `pkey` token precedes it in the same
annotation.  With tokens `pkey,autoinc` on an INTEGER-resolved field the
field loop succeeds and records the AUTOINCREMENT marker, and the CREATE
TABLE statement declares it; with `pkey,autoinc` on a non-INTEGER field the
loop fails with the autoinc-not-INTEGER error; with `autoinc,pkey` it fails
with the autoinc-without-pkey error. -/
theorem createTable_autoinc_requires_pkey_first
    (st : CTState) (f : Field) (ty : String) (oracle : Oracle) (s : StructVal) :
    (f.exported = true → sqlTypeOf f = .ok "INTEGER" →
      goSplit ',' f.tag = ["pkey", "autoinc"] →
      fieldStep st f =
        .ok ({ st with primaryKeyCol := f.name,
                       primaryKeySQLType := "INTEGER",
                       pkeyAutoInc := " AUTOINCREMENT" }))
  ∧ (f.exported = true → sqlTypeOf f = .ok ty → ty ≠ "INTEGER" →
      goSplit ',' f.tag = ["pkey", "autoinc"] →
      fieldStep st f = .error (.autoincNotInteger f.name))
  ∧ (f.exported = true → sqlTypeOf f = .ok ty →
      goSplit ',' f.tag = ["autoinc", "pkey"] →
      fieldStep st f = .error (.autoincNotPkey f.name))
  ∧ (s.fields = [f] → f.exported = true → sqlTypeOf f = .ok "INTEGER" →
      goSplit ',' f.tag = ["pkey", "autoinc"] → f.name ≠ "" →
      (createTableIfNotExists oracle (.structVal s)).1 =
        [⟨createSql s.name ⟨f.name, "INTEGER", " AUTOINCREMENT", [], [], []⟩, []⟩])
  ∧ createSql "T4b" ⟨"Id", "INTEGER", " AUTOINCREMENT", [], [], []⟩ =
      "CREATE TABLE IF NOT EXISTS `T4b` (`Id` INTEGER PRIMARY KEY AUTOINCREMENT)" := by
  refine ⟨?_, ?_, ?_, ?_, by decide⟩
  · intro he hty htags
    simp only [fieldStep, he, if_true, hty, htags]
    rfl
  · intro he hty hne htags
    have hb : (ty != "INTEGER") = true := by simp [bne_iff_ne, hne]
    simp only [fieldStep, he, if_true, hty, htags]
    simp [tagStep, tagSwitch, tagCheck, hb, Bind.bind, Except.bind]
  · intro he hty htags
    simp only [fieldStep, he, if_true, hty, htags]
    rfl
  · intro hfields he hty htags hname
    have hstep : fieldStep initCT f =
        .ok ({ initCT with primaryKeyCol := f.name,
                           primaryKeySQLType := "INTEGER",
                           pkeyAutoInc := " AUTOINCREMENT" }) := by
      simp only [fieldStep, he, if_true, hty, htags]
      rfl
    have hfold : s.fields.foldlM fieldStep initCT = .ok ⟨f.name, "INTEGER",
        " AUTOINCREMENT", [], [], []⟩ := by
      rw [hfields, List.foldlM_cons, hstep]
      rfl
    have hnb : (f.name == "") = false := by simp [hname]
    cases h0 : oracle 0 with
    | error msg =>
      simp [createTableIfNotExists, hfold, hnb, execSeq, ddlStatements, h0]
    | ok res =>
      simp [createTableIfNotExists, hfold, hnb, execSeq, ddlStatements, h0]

/-- Witness for the amended C4: the `pkey,autoinc` demo struct synthesizes a
CREATE TABLE with AUTOINCREMENT. -/
theorem createTable_autoinc_requires_pkey_first_witness :
    (createTableIfNotExists okOracle (.structVal demoPkeyFirst)).1 =
      [⟨"CREATE TABLE IF NOT EXISTS `T4b` (`Id` INTEGER PRIMARY KEY AUTOINCREMENT)", []⟩] := by
  have hfull := createTable_autoinc_requires_pkey_first initCT
    ⟨"Id", .int64, "pkey,autoinc", true, .vInt 0⟩ "INTEGER" okOracle demoPkeyFirst
  have h := hfull.2.2.2.1 rfl rfl rfl (by decide) (by decide)
  rw [h]
  decide

/-- C3 counterexample: an unbalanced `uniqueWith(` token and an
empty-argument `uniqueWith()` token both leave `CreateTableIfNotExists`
error-free — the unbalanced token is silently ignored and the empty
argument list produces an index over the field and the empty column name —
refuting "fails with a malformed-annotation error". -/
theorem createTable_malformed_counterexample :
    createTableIfNotExists okOracle (.structVal demoUnbalanced) =
      ([⟨"CREATE TABLE IF NOT EXISTS `T3` (`Id` INTEGER PRIMARY KEY)", []⟩,
        ⟨"ALTER TABLE `T3` ADD COLUMN `X` TEXT", []⟩], none)
  ∧ createTableIfNotExists okOracle (.structVal demoEmptyArgs) =
      ([⟨"CREATE TABLE IF NOT EXISTS `T3b` (`Id` INTEGER PRIMARY KEY)", []⟩,
        ⟨"ALTER TABLE `T3b` ADD COLUMN `X` TEXT", []⟩,
        ⟨"CREATE UNIQUE INDEX IF NOT EXISTS `T3b.X,` ON `T3b` (`X`,``)", []⟩], none) := by
  constructor
  · decide
  · decide

/-- C3 (amended): a `*With(...)` token whose argument list cannot be parsed
is silently ignored rather than failing: a token matched by neither regexp
(nor any bare keyword) leaves the switch state unchanged and the tag step
succeeds, appending the field as an ordinary value column; the unbalanced
token `uniqueWith(` matches neither regexp; and an empty argument list
`uniqueWith()` is accepted, recording a unique index over the field name and
the empty string.  No malformed-annotation failure exists. -/
theorem withTokens_malformed_ignored
    (n ty : String) (st : CTState) (p a : Bool) (t : String) :
    (t ≠ "unique" → t ≠ "index" → t ≠ "pkey" → t ≠ "autoinc" →
      regexCapture "uniqueWith(" t = none → regexCapture "indexWith(" t = none →
      tagSwitch n ty (st, p, a) t = (st, p, a))
  ∧ (t ≠ "unique" → t ≠ "index" → t ≠ "pkey" → t ≠ "autoinc" →
      regexCapture "uniqueWith(" t = none → regexCapture "indexWith(" t = none →
      tagStep n ty (st, false, false) t =
        .ok ({ st with cols := st.cols ++ [n], sqlTypes := st.sqlTypes ++ [ty] },
          false, false))
  ∧ regexCapture "uniqueWith(" "uniqueWith(" = none
  ∧ regexCapture "indexWith(" "uniqueWith(" = none
  ∧ tagSwitch n ty (st, p, a) "uniqueWith()" =
      ({ st with indices := st.indices ++ [⟨[n, ""], true⟩] }, p, a) := by
  have hswitch : ∀ (h1 : t ≠ "unique") (h2 : t ≠ "index") (h3 : t ≠ "pkey")
      (h4 : t ≠ "autoinc") (hru : regexCapture "uniqueWith(" t = none)
      (hri : regexCapture "indexWith(" t = none) (p0 a0 : Bool),
      tagSwitch n ty (st, p0, a0) t = (st, p0, a0) := by
    intro h1 h2 h3 h4 hru hri p0 a0
    simp [tagSwitch, beq_iff_eq, h1, h2, h3, h4, hru, hri]
  refine ⟨fun h1 h2 h3 h4 hru hri => hswitch h1 h2 h3 h4 hru hri p a,
    fun h1 h2 h3 h4 hru hri => ?_, by decide, by decide, by rfl⟩
  unfold tagStep
  rw [hswitch h1 h2 h3 h4 hru hri false false]
  rfl

/-- Witness for the amended C3: the concrete unbalanced token is ignored by
the switch and the step succeeds. -/
theorem withTokens_malformed_ignored_witness :
    tagStep "X" "TEXT" (initCT, false, false) "uniqueWith(" =
      .ok ({ initCT with cols := ["X"], sqlTypes := ["TEXT"] }, false, false) := by
  have h := (withTokens_malformed_ignored "X" "TEXT" initCT false false
    "uniqueWith(").2.1 (by decide) (by decide) (by decide) (by decide)
    (by decide) (by decide)
  rw [h]
  decide

/-! ### C5 -/

/-- C5 counterexample: renaming the offending `[]string` field from `Foo`
to `Bar` yields the identical error value — the unsupported-slice error
carries only the element kind, so it cannot name the offending field. -/
theorem sqlType_field_name_counterexample :
    createTableIfNotExists okOracle (.structVal demoBadSliceFoo) =
      ([], some (.unsupportedSliceType .string))
  ∧ createTableIfNotExists okOracle (.structVal demoBadSliceBar) =
      ([], some (.unsupportedSliceType .string)) := by
  exact ⟨by decide, by decide⟩

/-- C5 (amended): the SQL type derived for a field is INTEGER for every
signed or unsigned integer kind and for boolean, REAL for 32- and 64-bit
floats, TEXT for strings and BLOB for byte slices; any other kind is an
error that aborts the call before any statement is issued — but while the
error for a non-slice unsupported kind interpolates the whole field, the
error for a slice of non-byte element type carries only the element kind,
not the field; and the successful mapping depends only on the field's
kind. -/
theorem sqlType_mapping (f : Field) :
    (f.kind ∈ [Kind.uint, .uint8, .uint16, .uint32, .uint64, .int, .int8, .int16,
        .int32, .int64, .bool] → sqlTypeOf f = .ok "INTEGER")
  ∧ (f.kind = .float32 ∨ f.kind = .float64 → sqlTypeOf f = .ok "REAL")
  ∧ (f.kind = .string → sqlTypeOf f = .ok "TEXT")
  ∧ (f.kind = .slice .uint8 → sqlTypeOf f = .ok "BLOB")
  ∧ (∀ k, f.kind = .slice k → k ≠ .uint8 →
      sqlTypeOf f = .error (.unsupportedSliceType k))
  ∧ (∀ gn, f.kind = .otherKind gn → sqlTypeOf f = .error (.unsupportedType f))
  ∧ (∀ (g : Field) (ty : String), f.kind = g.kind →
      sqlTypeOf f = .ok ty → sqlTypeOf g = .ok ty)
  ∧ (∀ (oracle : Oracle) (tn : String) (k : Kind), k ≠ .uint8 →
      createTableIfNotExists oracle
          (.structVal ⟨tn, [{ f with kind := .slice k, exported := true }]⟩) =
        ([], some (.unsupportedSliceType k)))
  ∧ (∀ (oracle : Oracle) (tn gn : String),
      createTableIfNotExists oracle
          (.structVal ⟨tn, [{ f with kind := .otherKind gn, exported := true }]⟩) =
        ([], some (.unsupportedType { f with kind := .otherKind gn, exported := true }))) := by
  refine ⟨?_, ?_, ?_, ?_, ?_, ?_, ?_, ?_, ?_⟩
  · intro h
    cases hk : f.kind <;> rw [hk] at h <;> simp at h <;> simp [sqlTypeOf, hk]
  · intro h
    rcases h with h | h <;> simp [sqlTypeOf, h]
  · intro h
    simp [sqlTypeOf, h]
  · intro h
    simp [sqlTypeOf, h]
  · intro k hk hne
    simp [sqlTypeOf, hk, hne]
  · intro gn hk
    simp [sqlTypeOf, hk]
  · intro g ty hk h
    cases hkind : f.kind <;> rw [hkind] at hk <;>
      simp only [sqlTypeOf, hkind] at h <;> simp only [sqlTypeOf, ← hk] <;>
      first
      | exact h
      | simp at h
  · intro oracle tn k hk
    have hty : sqlTypeOf { f with kind := .slice k, exported := true } =
        .error (.unsupportedSliceType k) := by simp [sqlTypeOf, hk]
    simp [createTableIfNotExists, fieldStep, hty, Bind.bind, Except.bind]
  · intro oracle tn gn
    have hty : sqlTypeOf { f with kind := .otherKind gn, exported := true } =
        .error (.unsupportedType { f with kind := .otherKind gn, exported := true }) := by
      simp [sqlTypeOf]
    simp [createTableIfNotExists, fieldStep, hty, Bind.bind, Except.bind]

/-- Witness for the amended C5: an `int64` field maps to INTEGER. -/
theorem sqlType_mapping_witness :
    sqlTypeOf demoPkeyField = .ok "INTEGER" :=
  (sqlType_mapping demoPkeyField).1 (by decide)

/-! ### C6 -/

/-- Unfolding lemma for `execSeq` on a cons cell. -/
theorem execSeq_cons (oracle : Oracle) (k : Nat) (stmt : Stmt) (tolerant : Bool)
    (rest : List (Stmt × Bool)) :
    execSeq oracle k ((stmt, tolerant) :: rest) =
      match oracle k with
      | .error msg =>
        if tolerant && goContains msg "duplicate column name" then
          (stmt :: (execSeq oracle (k + 1) rest).1, (execSeq oracle (k + 1) rest).2)
        else ([stmt], some (.execFailure msg))
      | .ok _ =>
        (stmt :: (execSeq oracle (k + 1) rest).1, (execSeq oracle (k + 1) rest).2) := rfl

/-- The first eleven characters of an ALTER TABLE statement. -/
theorem take11_alter (T c ty : String) :
    (alterSql T c ty).data.take 11 = "ALTER TABLE".data := by
  simp only [alterSql,
    show ("ALTER TABLE `" : String) = "ALTER TABLE" ++ " `" from rfl]
  simp only [String.data_append, List.append_assoc]
  rw [show (11 : Nat) = "ALTER TABLE".data.length from rfl]
  exact List.take_left ..

/-- The first eleven characters of the CREATE TABLE statement. -/
theorem take11_create (T : String) (st : CTState) :
    (createSql T st).data.take 11 = "CREATE TABL".data := by
  simp only [createSql,
    show ("CREATE TABLE IF NOT EXISTS `" : String) = "CREATE TABL" ++ "E IF NOT EXISTS `"
      from rfl]
  simp only [String.data_append, List.append_assoc]
  rw [show (11 : Nat) = "CREATE TABL".data.length from rfl]
  exact List.take_left ..

/-- The first eleven characters of a CREATE INDEX statement are never those
of an ALTER TABLE statement. -/
theorem take11_index (T : String) (ix : Index) :
    (indexSql T ix).data.take 11 ≠ "ALTER TABLE".data := by
  cases hu : ix.unique
  · simp only [indexSql, hu, Bool.false_eq_true, if_false,
      show ("CREATE " : String) ++ "" ++ "INDEX IF NOT EXISTS `" =
        "CREATE INDE" ++ "X IF NOT EXISTS `" from rfl]
    simp only [String.data_append, List.append_assoc]
    rw [show (11 : Nat) = "CREATE INDE".data.length from rfl, List.take_left]
    decide
  · simp only [indexSql, hu, if_true,
      show ("CREATE " : String) ++ "UNIQUE " ++ "INDEX IF NOT EXISTS `" =
        "CREATE UNIQ" ++ "UE INDEX IF NOT EXISTS `" from rfl]
    simp only [String.data_append, List.append_assoc]
    rw [show (11 : Nat) = "CREATE UNIQ".data.length from rfl, List.take_left]
    decide

/-- In the DDL plan, the statements whose duplicate-column failures are
tolerated are exactly those whose text begins with `ALTER TABLE`. -/
theorem ddl_tolerant_iff (T : String) (st : CTState) (p : Stmt × Bool)
    (hp : p ∈ ddlStatements T st) :
    p.2 = true ↔ p.1.sql.data.take 11 = "ALTER TABLE".data := by
  simp only [ddlStatements, List.mem_cons, List.mem_append, List.mem_map] at hp
  rcases hp with rfl | ⟨⟨q, hq, rfl⟩ | ⟨ix, hix, rfl⟩⟩
  · constructor
    · intro h
      exact Bool.noConfusion h
    · intro h
      rw [take11_create T st] at h
      exact absurd h (by decide)
  · exact ⟨fun _ => take11_alter T q.1 q.2, fun _ => rfl⟩
  · constructor
    · intro h
      exact Bool.noConfusion h
    · intro h
      exact absurd h (take11_index T ix)

/-- C6: during `createTableIfNotExists`, once the field loop has succeeded
and a primary key exists, the call is exactly the sequential execution of
the DDL plan; in that plan the tolerated statements are exactly the
ALTER TABLE ADD COLUMN statements; and at any point of the execution, an
executor failure whose message contains `duplicate column name` on a
tolerated statement is treated as success (the run continues with the next
statement, the final error unaffected), while any other failure stops the
run immediately and is returned as the forwarded executor failure. -/
theorem createTable_duplicate_column_tolerated :
    (∀ (oracle : Oracle) (k : Nat) (stmt : Stmt) (rest : List (Stmt × Bool)) (msg : String),
      oracle k = .error msg → goContains msg "duplicate column name" = true →
      execSeq oracle k ((stmt, true) :: rest) =
        (stmt :: (execSeq oracle (k + 1) rest).1, (execSeq oracle (k + 1) rest).2))
  ∧ (∀ (oracle : Oracle) (k : Nat) (stmt : Stmt) (b : Bool) (rest : List (Stmt × Bool))
      (msg : String),
      oracle k = .error msg → goContains msg "duplicate column name" = false →
      execSeq oracle k ((stmt, b) :: rest) = ([stmt], some (.execFailure msg)))
  ∧ (∀ (T : String) (st : CTState) (p : Stmt × Bool), p ∈ ddlStatements T st →
      (p.2 = true ↔ p.1.sql.data.take 11 = "ALTER TABLE".data))
  ∧ (∀ (oracle : Oracle) (s : StructVal) (st : CTState),
      s.fields.foldlM fieldStep initCT = .ok st → st.primaryKeyCol ≠ "" →
      createTableIfNotExists oracle (.structVal s) =
        execSeq oracle 0 (ddlStatements s.name st)) := by
  refine ⟨?_, ?_, ddl_tolerant_iff, ?_⟩
  · intro oracle k stmt rest msg h1 h2
    rw [execSeq_cons, h1]
    simp [h2]
  · intro oracle k stmt b rest msg h1 h2
    rw [execSeq_cons, h1]
    simp [h2]
  · intro oracle s st hfold hpk
    have hb : (st.primaryKeyCol == "") = false := by simp [hpk]
    simp [createTableIfNotExists, hfold, hb]

/-- Witness for C6: a non-duplicate failure on the first ALTER statement
aborts the run with the forwarded error. -/
theorem createTable_duplicate_column_tolerated_witness :
    execSeq boomOracle 0 [(⟨"ALTER TABLE `T` ADD COLUMN `X` TEXT", []⟩, true)] =
      ([⟨"ALTER TABLE `T` ADD COLUMN `X` TEXT", []⟩], some (.execFailure "boom")) :=
  createTable_duplicate_column_tolerated.2.1 boomOracle 0
    ⟨"ALTER TABLE `T` ADD COLUMN `X` TEXT", []⟩ true [] "boom" rfl (by decide)

/-! ### C9 -/

/-- The scan's column, placeholder and parameter lists, and whether a
back-fill target exists, do not depend on the starting index. -/
theorem upsertScan_k_irrel (l : List Field) (k k2 : Nat) :
    (upsertScan k l).cols = (upsertScan k2 l).cols
  ∧ (upsertScan k l).qmarks = (upsertScan k2 l).qmarks
  ∧ (upsertScan k l).params = (upsertScan k2 l).params
  ∧ (upsertScan k l).pk.isSome = (upsertScan k2 l).pk.isSome := by
  induction l generalizing k k2 with
  | nil => exact ⟨rfl, rfl, rfl, rfl⟩
  | cons f rest ih =>
    obtain ⟨hc, hq, hp, hk⟩ := ih (k + 1) (k2 + 1)
    by_cases he : f.exported
    · by_cases hs : skipPkeyZero f
      · simp [upsertScan_cons, he, hs, hc, hq, hp, hk]
      · simp [upsertScan_cons, he, hs, hc, hq, hp, hk]
    · simpa [upsertScan_cons, he] using ih (k + 1) (k2 + 1)

/-- Dropping the unexported fields changes neither the scan's column,
placeholder or parameter lists nor whether a back-fill target exists. -/
theorem upsertScan_filter (l : List Field) (k : Nat) :
    (upsertScan k l).cols = (upsertScan k (l.filter (·.exported))).cols
  ∧ (upsertScan k l).qmarks = (upsertScan k (l.filter (·.exported))).qmarks
  ∧ (upsertScan k l).params = (upsertScan k (l.filter (·.exported))).params
  ∧ (upsertScan k l).pk.isSome = (upsertScan k (l.filter (·.exported))).pk.isSome := by
  induction l generalizing k with
  | nil => exact ⟨rfl, rfl, rfl, rfl⟩
  | cons f rest ih =>
    by_cases he : f.exported
    · have hf : (f :: rest).filter (·.exported) = f :: rest.filter (·.exported) := by
        simp [List.filter_cons, he]
      obtain ⟨hc, hq, hp, hk⟩ := ih (k + 1)
      rw [hf]
      by_cases hs : skipPkeyZero f
      · simp [upsertScan_cons, he, hs, hc, hq, hp, hk]
      · simp [upsertScan_cons, he, hs, hc, hq, hp, hk]
    · have hf : (f :: rest).filter (·.exported) = rest.filter (·.exported) := by
        simp [List.filter_cons, he]
      obtain ⟨hc, hq, hp, hk⟩ := ih (k + 1)
      obtain ⟨hc2, hq2, hp2, hk2⟩ := upsertScan_k_irrel (rest.filter (·.exported)) (k + 1) k
      rw [hf]
      refine ⟨?_, ?_, ?_, ?_⟩ <;> simp [upsertScan_cons, he] <;>
        first
        | rw [hc, hc2]
        | rw [hq, hq2]
        | rw [hp, hp2]
        | rw [hk, hk2]

/-- A recorded back-fill index always points at an exported field. -/
theorem upsertScan_pk_exported (l : List Field) (k i : Nat)
    (h : (upsertScan k l).pk = some i) :
    k ≤ i ∧ ∃ f, l.get? (i - k) = some f ∧ f.exported = true := by
  induction l generalizing k with
  | nil => cases h
  | cons f rest ih =>
    by_cases he : f.exported
    · by_cases hs : skipPkeyZero f
      · rw [upsertScan_cons] at h
        simp only [he, hs, if_true] at h
        cases hpk : (upsertScan (k + 1) rest).pk with
        | none =>
          rw [hpk] at h
          simp at h
          subst h
          exact ⟨Nat.le_refl k, f, by simp, he⟩
        | some j =>
          rw [hpk] at h
          simp at h
          subst h
          obtain ⟨hle, g, hg, hge⟩ := ih (k + 1) hpk
          refine ⟨Nat.le_trans (Nat.le_succ k) hle, g, ?_, hge⟩
          rw [show j - k = (j - (k + 1)) + 1 from by omega]
          simpa using hg
      · rw [upsertScan_cons] at h
        simp only [he, hs, if_true, Bool.false_eq_true, if_false] at h
        obtain ⟨hle, g, hg, hge⟩ := ih (k + 1) h
        refine ⟨Nat.le_trans (Nat.le_succ k) hle, g, ?_, hge⟩
        rw [show i - k = (i - (k + 1)) + 1 from by omega]
        simpa using hg
    · rw [upsertScan_cons] at h
      simp only [he, Bool.false_eq_true, if_false] at h
      obtain ⟨hle, g, hg, hge⟩ := ih (k + 1) h
      refine ⟨Nat.le_trans (Nat.le_succ k) hle, g, ?_, hge⟩
      rw [show i - k = (i - (k + 1)) + 1 from by omega]
      simpa using hg

/-- Setting the integer at index `i` leaves every other position unchanged. -/
theorem setIntAt_get?_ne (l : List Field) (i n : Nat) (v : Int) (hne : n ≠ i) :
    (setIntAt l i v).get? n = l.get? n := by
  induction l generalizing i n with
  | nil => rfl
  | cons f rest ih =>
    cases i with
    | zero =>
      cases n with
      | zero => exact absurd rfl hne
      | succ m => rfl
    | succ j =>
      cases n with
      | zero => rfl
      | succ m =>
        simp only [setIntAt, List.get?_cons_succ]
        exact ih j m (fun hc => hne (by rw [hc]))

/-- The field fold of `createTableIfNotExists` ignores unexported fields:
folding the filtered list is the same computation. -/
theorem fieldFold_filter (l : List Field) (st : CTState) :
    l.foldlM fieldStep st = (l.filter (·.exported)).foldlM fieldStep st := by
  induction l generalizing st with
  | nil => rfl
  | cons f rest ih =>
    by_cases he : f.exported
    · have hf : (f :: rest).filter (·.exported) = f :: rest.filter (·.exported) := by
        simp [List.filter_cons, he]
      rw [hf, List.foldlM_cons, List.foldlM_cons]
      cases hstep : fieldStep st f with
      | error e => simp [hstep, Bind.bind, Except.bind]
      | ok st1 => simp [hstep, Bind.bind, Except.bind, ih st1]
    · have hf : (f :: rest).filter (·.exported) = rest.filter (·.exported) := by
        simp [List.filter_cons, he]
      have hstep : fieldStep st f = .ok st := by simp [fieldStep, he]
      rw [hf, List.foldlM_cons, hstep]
      simp [Bind.bind, Except.bind, ih st]

/-- C9: unexported fields never participate.  The statement issued by
`upsert` and its returned error coincide with those of the struct whose
unexported fields have been removed; the back-fill mutation never touches an
unexported field (every unexported position reads back unchanged from the
final struct); and `createTableIfNotExists` computes the very same outcome
on the filtered struct. -/
theorem unexported_fields_excluded :
    (∀ (oracle : Oracle) (s : StructVal) (ov : Bool),
      (upsert oracle (.ptr (.structVal s)) ov).stmts =
        (upsert oracle (.ptr (.structVal ⟨s.name, s.fields.filter (·.exported)⟩)) ov).stmts
      ∧ (upsert oracle (.ptr (.structVal s)) ov).err =
        (upsert oracle (.ptr (.structVal ⟨s.name, s.fields.filter (·.exported)⟩)) ov).err)
  ∧ (∀ (oracle : Oracle) (s : StructVal) (ov : Bool) (j : Nat) (g : Field),
      s.fields.get? j = some g → g.exported = false →
      ∃ fields2, (upsert oracle (.ptr (.structVal s)) ov).final =
          .ptr (.structVal ⟨s.name, fields2⟩) ∧ fields2.get? j = some g)
  ∧ (∀ (oracle : Oracle) (s : StructVal),
      createTableIfNotExists oracle (.structVal s) =
        createTableIfNotExists oracle (.structVal ⟨s.name, s.fields.filter (·.exported)⟩)) := by
  refine ⟨?_, ?_, ?_⟩
  · intro oracle s ov
    obtain ⟨hc, hq, hp, hk⟩ := upsertScan_filter s.fields 0
    cases h0 : oracle 0 with
    | error msg => simp [upsert, h0, hc, hq, hp]
    | ok res =>
      cases hpk : (upsertScan 0 s.fields).pk with
      | none =>
        have hpk2 : (upsertScan 0 (s.fields.filter (·.exported))).pk = none := by
          rw [hpk] at hk
          cases hpk2 : (upsertScan 0 (s.fields.filter (·.exported))).pk with
          | none => rfl
          | some j =>
            rw [hpk2] at hk
            cases hk
        simp [upsert, h0, hpk, hpk2, hc, hq, hp]
      | some i =>
        rw [hpk] at hk
        cases hpk2 : (upsertScan 0 (s.fields.filter (·.exported))).pk with
        | none =>
          rw [hpk2] at hk
          cases hk
        | some j =>
          cases hl : res.lastInsertId with
          | error msg => simp [upsert, h0, hpk, hpk2, hl, hc, hq, hp]
          | ok lastId => simp [upsert, h0, hpk, hpk2, hl, hc, hq, hp]
  · intro oracle s ov j g hj hg
    cases h0 : oracle 0 with
    | error msg => exact ⟨s.fields, by simp [upsert, h0], hj⟩
    | ok res =>
      cases hpk : (upsertScan 0 s.fields).pk with
      | none => exact ⟨s.fields, by simp [upsert, h0, hpk], hj⟩
      | some i =>
        cases hl : res.lastInsertId with
        | error msg => exact ⟨s.fields, by simp [upsert, h0, hpk, hl], hj⟩
        | ok lastId =>
          obtain ⟨-, f, hfi, hfe⟩ := upsertScan_pk_exported s.fields 0 i hpk
          rw [Nat.sub_zero] at hfi
          have hne : j ≠ i := by
            intro hc
            rw [hc, hfi] at hj
            cases hj
            rw [hfe] at hg
            cases hg
          refine ⟨setIntAt s.fields i lastId, by simp [upsert, h0, hpk, hl], ?_⟩
          rw [setIntAt_get?_ne s.fields i j lastId hne]
          exact hj
  · intro oracle s
    simp only [createTableIfNotExists]
    rw [fieldFold_filter]

/-- Witness for C9: in the demo struct with an unexported middle field, the
back-filled final struct still holds the unexported field unchanged. -/
theorem unexported_fields_excluded_witness :
    ∃ fields2, (upsert okOracle (.ptr (.structVal demoStructHidden)) false).final =
        .ptr (.structVal ⟨"U", fields2⟩) ∧ fields2.get? 1 = some demoHiddenField :=
  unexported_fields_excluded.2.1 okOracle demoStructHidden false 1 demoHiddenField rfl rfl

end Sqly
